import Mathlib

/-!
# autojudge: verdict classification and output comparison

A shallow embedding of the two C variants of the judge,
`src/autojudge/autojudge.c` (line-mode comparator) and
`src/autojudge/example1/autojudge.c` (byte-mode comparator).

Conventions of the embedding.

* A file is the list of its bytes; an open read stream is the list of the
  bytes not yet consumed. A file system maps a path to the content of the
  file at that path, or to `none` when `fopen` fails.
* Paths and command-line words are strings without NUL whose characters
  stand for the bytes of the C string.
* C `int` counters are `Int`; signed overflow is undefined in C and is not
  modelled (it needs more than `2^31` test cases).
* Library functions and macros (`fgets`, `fgetc`, `strcmp`, `atoi`,
  `snprintf`, `strncpy`, and the `<sys/wait.h>` macros) follow their
  documented Linux/glibc behaviour, with plain `char` signed.
* `exit`, a child branch that never returns to the caller, and undefined
  behaviour are the three ways a function does not return: `Halt`.
-/

namespace Autojudge

set_option linter.unusedVariables false

/-! ## Data model -/

/-- One byte of a file. -/
abbrev Byte := Fin 256

/-- An open `FILE*` in read mode: the bytes that are still to be read. -/
abbrev FileStream := List Byte

/-- The file system seen by `fopen(path, "r")`: the content, or `none` when
the file cannot be opened. -/
abbrev FileSystem := String → Option (List Byte)

/-- The macro `BUFFER_SIZE` of both variants. -/
def BUFFER_SIZE : Nat := 1024

/-- The struct `JudgeContext` of both variants. -/
structure JudgeContext where
  inputDir : String
  answerDir : String
  executable : String
  timeLimit : Int
  totalTests : Int
  passedTests : Int
  timeouts : Int
  compileErrors : Int
  runtimeErrors : Int
  deriving DecidableEq, Repr

/-- The context after `memset(&context, 0, sizeof(JudgeContext))`. -/
def JudgeContext.zeroed : JudgeContext :=
  { inputDir := "", answerDir := "", executable := "", timeLimit := 0,
    totalTests := 0, passedTests := 0, timeouts := 0, compileErrors := 0,
    runtimeErrors := 0 }

/-- The ways a C function of the judge does not return to its caller. -/
inductive Halt where
  /-- The call `exit(EXIT_FAILURE)`. -/
  | exitFailure
  /-- The branch `pid == 0` after `fork`: the child process, which ends in
  `execl` or `exit` and never continues the judge. -/
  | childProcess
  /-- Undefined behaviour of the C program. -/
  | undefinedBehaviour
  deriving DecidableEq, Repr

deriving instance DecidableEq for Except

/-! ## C library: line and byte input, string comparison -/

/-- The bytes `fgets` stores when it may still read `n` bytes: it stops
after a newline (which it keeps), at end of file, or when `n` bytes are
read. -/
def readLine : Nat → FileStream → List Byte
  | 0, _ => []
  | _ + 1, [] => []
  | n + 1, c :: s => if c = 10 then [c] else c :: readLine n s

/-- The call `fgets(buf, size, fp)`: `none` (NULL) at end of file, otherwise
the bytes stored in `buf` before the terminating NUL; with it the stream
that remains, which is `fp` without the bytes stored. -/
def fgets (size : Nat) (fp : FileStream) : Option (List Byte) × FileStream :=
  match fp with
  | [] => (none, [])
  | c :: s =>
    (some (readLine (size - 1) (c :: s)), (c :: s).drop (readLine (size - 1) (c :: s)).length)

/-- The call `strcmp(a, b)` on two buffers holding the given bytes followed by
a NUL: the difference of the first pair of bytes that differ, and `0` when
the strings agree up to the first NUL. -/
def strcmp : List Byte → List Byte → Int
  | [], [] => 0
  | [], b :: _ => 0 - (b.val : Int)
  | a :: _, [] => (a.val : Int)
  | a :: as, b :: bs =>
    if a ≠ b then (a.val : Int) - (b.val : Int)
    else if a = 0 then 0
    else strcmp as bs

/-- The value `EOF`. -/
def EOF : Int := -1

/-- The call `fgetc(fp)`: the next byte as a value in `0..255`, or `EOF`; with
it the stream that remains. -/
def fgetc (fp : FileStream) : Int × FileStream :=
  match fp with
  | [] => (EOF, [])
  | c :: s => ((c.val : Int), s)

/-- Conversion of an `int` to a (signed, 8-bit) `char`, as in
`char ch1 = fgetc(fp1)`. -/
def toChar (x : Int) : Int := (x + 128) % 256 - 128

/-- The call `snprintf(buf, size, "%s", s)` and its relatives: the formatted
text cut to `size - 1` characters. -/
def snprintf (size : Nat) (s : String) : String := String.mk (s.toList.take (size - 1))

/-! ## Line-mode comparator (`src/autojudge/autojudge.c`) -/

/-- The loop
`while (fgets(outBuf, ..., fpOut) && fgets(ansBuf, ..., fpAns)) { if (strcmp(outBuf, ansBuf) != 0) { result = 1; break; } }`
of `compare_output_with_answer`: the value of `result` and the two streams
when the loop is left. `&&` does not read from `fpAns` when `fpOut` is at end
of file. -/
def compareLoop (fpOut fpAns : FileStream) : Int × FileStream × FileStream :=
  match hOut : fgets BUFFER_SIZE fpOut with
  | (none, fpOut1) => (0, fpOut1, fpAns)
  | (some outBuf, fpOut1) =>
    match fgets BUFFER_SIZE fpAns with
    | (none, fpAns1) => (0, fpOut1, fpAns1)
    | (some ansBuf, fpAns1) =>
      if strcmp outBuf ansBuf ≠ 0 then (1, fpOut1, fpAns1)
      else compareLoop fpOut1 fpAns1
termination_by fpOut.length
decreasing_by
  cases fpOut with
  | nil => simp [fgets] at hOut
  | cons c s =>
    simp only [fgets, BUFFER_SIZE, Prod.mk.injEq, Option.some.injEq] at hOut
    rw [← hOut.2]
    simp only [readLine]
    split
    · simp
    · simp; omega

/-- The function `compare_output_with_answer` of `src/autojudge/autojudge.c`. -/
def compare_output_with_answer (fs : FileSystem) (outputFile answerFile : String) : Int :=
  match fs outputFile, fs answerFile with
  | some fpOut, some fpAns =>
    match compareLoop fpOut fpAns with
    | (result, fpOut1, fpAns1) =>
      if result = 0 then
        if (fgets BUFFER_SIZE fpOut1).1.isSome || (fgets BUFFER_SIZE fpAns1).1.isSome then 1
        else result
      else result
  | _, _ => -1

/-! ## Byte-mode comparator (`src/autojudge/example1/autojudge.c`) -/

/-- The loop
`while ((ch1 != EOF) && (ch2 != EOF) && (ch1 == ch2)) { ch1 = fgetc(fp1); ch2 = fgetc(fp2); }`
of `compare_files`, where `ch1` and `ch2` are of type `char`: the values of
`ch1` and `ch2` when the loop is left. -/
def compareFilesLoop (ch1 ch2 : Int) (fp1 fp2 : FileStream) : Int × Int :=
  if hc : ch1 ≠ EOF ∧ ch2 ≠ EOF ∧ ch1 = ch2 then
    compareFilesLoop (toChar (fgetc fp1).1) (toChar (fgetc fp2).1) (fgetc fp1).2 (fgetc fp2).2
  else (ch1, ch2)
termination_by fp1.length + (if ch1 = EOF then 0 else 1)
decreasing_by
  cases fp1 with
  | nil =>
    have h1 : ch1 ≠ -1 := hc.1
    simp [fgetc, toChar, EOF, h1]
  | cons c s =>
    simp only [fgetc, hc.1, if_false, List.length_cons]
    split <;> omega

/-- The function `compare_files` of `src/autojudge/example1/autojudge.c`. -/
def compare_files (fs : FileSystem) (file1 file2 : String) : Int :=
  match fs file1, fs file2 with
  | some fp1, some fp2 =>
    match compareFilesLoop (toChar (fgetc fp1).1) (toChar (fgetc fp2).1)
        (fgetc fp1).2 (fgetc fp2).2 with
    | (ch1, ch2) =>
      if ch1 = ch2 then 0
      else if ch1 = EOF ∧ ch2 = EOF then 0
      else 1
  | _, _ => 1

/-! ## Wait status (`<sys/wait.h>`, Linux) -/

/-- The signal number `SIGALRM`. -/
def SIGALRM : Nat := 14

/-- The signal number `SIGSEGV`. -/
def SIGSEGV : Nat := 11

/-- The macro `WTERMSIG(status)`: `status & 0x7f`. -/
def WTERMSIG (status : Nat) : Nat := status &&& 0x7f

/-- The macro `WEXITSTATUS(status)`: `(status & 0xff00) >> 8`. -/
def WEXITSTATUS (status : Nat) : Nat := (status &&& 0xff00) >>> 8

/-- The macro `WIFEXITED(status)`: `WTERMSIG(status) == 0`. -/
def WIFEXITED (status : Nat) : Bool := WTERMSIG status == 0

/-- The macro `WIFSIGNALED(status)`:
`((signed char) ((status & 0x7f) + 1) >> 1) > 0`. -/
def WIFSIGNALED (status : Nat) : Bool :=
  decide (0 < (toChar (((status &&& 0x7f) + 1 : Nat) : Int)) >>> 1)

/-! ## Running one test case -/

/-- What the parent observes of one child: the value returned by `fork`, the
status stored by `wait`, and the file system once the child has ended. -/
structure ChildRun where
  pid : Int
  status : Nat
  fs : FileSystem

/-- The call `strrchr(s, c)`: the part of `s` from the last `c` on, or `none`
(NULL) when `c` does not occur. -/
def strrchr : List Char → Char → Option (List Char)
  | [], _ => none
  | x :: xs, c =>
    match strrchr xs c with
    | some r => some r
    | none => if x = c then some (x :: xs) else none

/-- The path `answerFile` that `run_test_case` builds in both variants from
`strrchr(inputFile, '/') + 1` and `context->answerDir`; `none` when
`inputFile` has no `/`, where the C code dereferences `NULL + 1`. -/
def answerFilePath (context : JudgeContext) (inputFile : String) : Option String :=
  match strrchr inputFile.toList '/' with
  | none => none
  | some r =>
    let baseName := snprintf 256 (String.mk (r.drop 1))
    some (snprintf 512 (context.answerDir ++ "/" ++ baseName))

/-- The function `run_test_case` of `src/autojudge/autojudge.c`, seen from the
judge: the context when it returns. -/
def run_test_case (context : JudgeContext) (inputFile : String) (run : ChildRun) :
    Except Halt JudgeContext :=
  if run.pid = 0 then .error .childProcess
  else if run.pid > 0 then
    if WIFSIGNALED run.status then
      if WTERMSIG run.status = SIGALRM then
        .ok { context with timeouts := context.timeouts + 1 }
      else if WTERMSIG run.status = SIGSEGV then .ok context
      else .ok context
    else if WIFEXITED run.status && WEXITSTATUS run.status == 0 then
      match answerFilePath context inputFile with
      | none => .error .undefinedBehaviour
      | some answerFile =>
        if compare_output_with_answer run.fs "temp_output.txt" answerFile = 0 then
          .ok { context with passedTests := context.passedTests + 1 }
        else .ok { context with runtimeErrors := context.runtimeErrors + 1 }
    else .ok { context with runtimeErrors := context.runtimeErrors + 1 }
  else .error .exitFailure

/-- The function `run_test_case` of `src/autojudge/example1/autojudge.c`, seen
from the judge: the context when it returns. -/
def run_test_case_example1 (context : JudgeContext) (inputFile : String) (run : ChildRun) :
    Except Halt JudgeContext :=
  if run.pid = 0 then .error .childProcess
  else if run.pid > 0 then
    if WIFSIGNALED run.status && WTERMSIG run.status == SIGALRM then
      .ok { context with timeouts := context.timeouts + 1 }
    else if WIFEXITED run.status && WEXITSTATUS run.status == 0 then
      match answerFilePath context inputFile with
      | none => .error .undefinedBehaviour
      | some answerFile =>
        if compare_files run.fs "temp_output.txt" answerFile = 0 then
          .ok { context with passedTests := context.passedTests + 1 }
        else .ok context
    else .ok { context with runtimeErrors := context.runtimeErrors + 1 }
  else .error .exitFailure

/-! ## The case loop of `src/autojudge/autojudge.c` -/

/-- The value `DT_REG` of `d_type`: a regular file. -/
def DT_REG : Nat := 8

/-- A `struct dirent` as far as the judge reads it. -/
structure Dirent where
  d_type : Nat
  d_name : String

/-- The loop `while ((entry = readdir(dir)) != NULL)` of `execute_tests`: each
entry comes with what the parent observes if a child is run on it. -/
def executeLoop : JudgeContext → List (Dirent × ChildRun) → Except Halt JudgeContext
  | context, [] => .ok context
  | context, (entry, run) :: rest =>
    if entry.d_type = DT_REG then
      match run_test_case context (snprintf 512 (context.inputDir ++ "/" ++ entry.d_name)) run with
      | .error h => .error h
      | .ok context1 =>
        executeLoop { context1 with totalTests := context1.totalTests + 1 } rest
    else executeLoop context rest

/-- The function `execute_tests` of `src/autojudge/autojudge.c`; `dir` is `none`
when `opendir` fails, otherwise the entries `readdir` yields. -/
def execute_tests (context : JudgeContext) (dir : Option (List (Dirent × ChildRun))) :
    Except Halt JudgeContext :=
  match dir with
  | none => .error .exitFailure
  | some entries => executeLoop context entries

/-- The number of cases of a run whose child was terminated by `SIGSEGV`. -/
def segvCases (entries : List (Dirent × ChildRun)) : Nat :=
  (entries.filter fun e =>
    e.1.d_type = DT_REG && WIFSIGNALED e.2.status && WTERMSIG e.2.status == SIGSEGV).length

/-! ## Command line -/

/-- The test `isspace(c)` in the C locale. -/
def isspace (c : Char) : Bool := c = ' ' || (9 ≤ c.toNat && c.toNat ≤ 13)

/-- The value of the decimal digits at the start of `s`, continuing from the
value `acc` of the digits already read. -/
def digitsValue : List Char → Nat → Nat
  | [], acc => acc
  | c :: s, acc =>
    if '0' ≤ c ∧ c ≤ '9' then digitsValue s (10 * acc + (c.toNat - 48)) else acc

/-- The call `strtol(s, NULL, 10)` with a 64-bit `long`: white space, an
optional sign, decimal digits; the value is clamped to the range of `long`. -/
def strtol (s : List Char) : Int :=
  match s.dropWhile isspace with
  | '-' :: r => max (-(2 ^ 63)) (-(digitsValue r 0 : Int))
  | '+' :: r => min (2 ^ 63 - 1) (digitsValue r 0 : Int)
  | r => min (2 ^ 63 - 1) (digitsValue r 0 : Int)

/-- The call `atoi(s)`, which glibc defines as `(int) strtol(s, NULL, 10)`
with a 32-bit `int`. -/
def atoi (s : String) : Int := (strtol s.toList + 2 ^ 31) % 2 ^ 32 - 2 ^ 31

/-- The call `strncpy(dst, src, n)` into a buffer of `n + 1` bytes whose last
byte is zero: the string then held by `dst`. -/
def strncpy (src : String) (n : Nat) : String := String.mk (src.toList.take n)

/-- What `getopt(argc, argv, "i:a:t:")` does over the calls of one loop: the
values it returns before `-1`, each with the `optarg` it sets, and the value
of `optind` once it has returned `-1`. -/
structure GetoptRun where
  events : List (Char × String)
  optind : Nat

/-- The loop `while ((opt = getopt(...)) != -1) switch (opt) ...` of
`parse_command_line` in `src/autojudge/autojudge.c`. -/
def parseLoop : JudgeContext → List (Char × String) → Except Halt JudgeContext
  | context, [] => .ok context
  | context, (opt, optarg) :: rest =>
    if opt = 'i' then parseLoop { context with inputDir := strncpy optarg 255 } rest
    else if opt = 'a' then parseLoop { context with answerDir := strncpy optarg 255 } rest
    else if opt = 't' then parseLoop { context with timeLimit := atoi optarg } rest
    else .error .exitFailure

/-- The function `parse_command_line` of `src/autojudge/autojudge.c`. -/
def parse_command_line (argv : List String) (g : GetoptRun) (context : JudgeContext) :
    Except Halt JudgeContext :=
  match parseLoop context g.events with
  | .error h => .error h
  | .ok context1 =>
    if h : g.optind < argv.length then
      .ok { context1 with executable := strncpy argv[g.optind] 255 }
    else .error .exitFailure

/-- The loop `while ((opt = getopt(...)) != -1) switch (opt) ...` of
`parse_command_line` in `src/autojudge/example1/autojudge.c`. `strcpy` into a
buffer of 256 bytes is undefined when the string does not fit. -/
def parseLoop_example1 : JudgeContext → List (Char × String) → Except Halt JudgeContext
  | context, [] => .ok context
  | context, (opt, optarg) :: rest =>
    if opt = 'i' then
      if optarg.length < 256 then parseLoop_example1 { context with inputDir := optarg } rest
      else .error .undefinedBehaviour
    else if opt = 'a' then
      if optarg.length < 256 then parseLoop_example1 { context with answerDir := optarg } rest
      else .error .undefinedBehaviour
    else if opt = 't' then
      if atoi optarg ≤ 0 then .error .exitFailure
      else parseLoop_example1 { context with timeLimit := atoi optarg } rest
    else .error .exitFailure

/-- The function `parse_command_line` of `src/autojudge/example1/autojudge.c`;
`isDir path` tells whether `stat(path, &st) == 0 && S_ISDIR(st.st_mode)`. -/
def parse_command_line_example1 (isDir : String → Bool) (argv : List String) (g : GetoptRun)
    (context : JudgeContext) : Except Halt JudgeContext :=
  match parseLoop_example1 context g.events with
  | .error h => .error h
  | .ok context1 =>
    if h : g.optind < argv.length then
      let context2 := { context1 with executable := snprintf 256 (argv[g.optind] ++ ".out") }
      if !isDir context2.inputDir then .error .exitFailure
      else if !isDir context2.answerDir then .error .exitFailure
      else .ok context2
    else .error .exitFailure

/-- Whether the option `-t` was among the options `getopt` returned. -/
def hasTimeOption (g : GetoptRun) : Bool := g.events.any fun e => e.1 = 't'

/-- The time limit `parse_command_line` of `src/autojudge/autojudge.c` leaves
in the context: `atoi` of the last `-t` value, or the initial value when
there is no `-t`. -/
def lastTimeLimit (events : List (Char × String)) (init : Int) : Int :=
  events.foldl (fun t e => if e.1 = 't' then atoi e.2 else t) init

/-- The number of cases of a run whose child was terminated by a signal other
than `SIGALRM`. -/
def otherSignalCases (entries : List (Dirent × ChildRun)) : Nat :=
  (entries.filter fun e =>
    e.1.d_type = DT_REG && WIFSIGNALED e.2.status && WTERMSIG e.2.status != SIGALRM).length

/-! ## Sample inputs -/

/-- A context as left by the command line `-i in -a ans -t 1 prog.c`. -/
def sampleContext : JudgeContext :=
  { JudgeContext.zeroed with
    inputDir := "in", answerDir := "ans", executable := "prog.c", timeLimit := 1 }

/-- A context as left by the command line `-i in -a ans -t 5 prog.c`. -/
def sampleContext5 : JudgeContext :=
  { JudgeContext.zeroed with
    inputDir := "in", answerDir := "ans", executable := "prog.c", timeLimit := 5 }

/-- The produced output is `"a\nb\n"` and the expected answer is `"a\n"`. -/
def longerOutputFs : FileSystem := fun path =>
  if path = "temp_output.txt" then some [97, 10, 98, 10]
  else if path = "ans/1.txt" then some [97, 10]
  else none

/-- The produced output is the single byte `0xFF` and the expected answer is
empty. -/
def highByteFs : FileSystem := fun path =>
  if path = "temp_output.txt" then some [255]
  else if path = "ans/1.txt" then some []
  else none

/-- The produced output and the expected answer are both `"hi\n"`. -/
def sameFs : FileSystem := fun path =>
  if path = "temp_output.txt" then some [104, 105, 10]
  else if path = "ans/1.txt" then some [104, 105, 10]
  else none

/-- No file can be opened. -/
def emptyFs : FileSystem := fun _ => none

/-- The command line `autojudge -i in -a ans -t 0 prog.c`. -/
def zeroLimitArgv : List String := ["autojudge", "-i", "in", "-a", "ans", "-t", "0", "prog.c"]

/-- What `getopt` does on `zeroLimitArgv`. -/
def zeroLimitGetopt : GetoptRun := ⟨[('i', "in"), ('a', "ans"), ('t', "0")], 7⟩

/-- The command line `autojudge -i in -a ans prog.c`, without `-t`. -/
def noLimitArgv : List String := ["autojudge", "-i", "in", "-a", "ans", "prog.c"]

/-- What `getopt` does on `noLimitArgv`. -/
def noLimitGetopt : GetoptRun := ⟨[('i', "in"), ('a', "ans")], 5⟩

/-- The command line `autojudge -i in -a ans -t 5 prog.c`. -/
def fiveLimitArgv : List String := ["autojudge", "-i", "in", "-a", "ans", "-t", "5", "prog.c"]

/-- What `getopt` does on `fiveLimitArgv`. -/
def fiveLimitGetopt : GetoptRun := ⟨[('i', "in"), ('a', "ans"), ('t', "5")], 7⟩

/-- An input directory with the one regular file `1.txt`, on which the child
is terminated by `SIGKILL` (wait status 9). -/
def sigkillDir : List (Dirent × ChildRun) := [(⟨DT_REG, "1.txt"⟩, ⟨1, 9, emptyFs⟩)]

/-! ## Comparator facts -/

theorem strcmp_self (l : List Byte) : strcmp l l = 0 := by
  induction l with
  | nil => simp [strcmp]
  | cons a l ih => simp [strcmp, ih]

theorem fgets_rest_length_lt (c : Byte) (s : FileStream) :
    (fgets BUFFER_SIZE (c :: s)).2.length < (c :: s).length := by
  simp only [fgets, BUFFER_SIZE, readLine]
  split
  · simp
  · simp; omega

theorem compareLoop_self_aux (n : Nat) :
    ∀ f : FileStream, f.length ≤ n → compareLoop f f = (0, [], []) := by
  induction n with
  | zero =>
    intro f hf
    have : f = [] := List.length_eq_zero.mp (Nat.le_zero.mp hf)
    subst this
    unfold compareLoop
    simp [fgets]
  | succ n ih =>
    intro f hf
    cases f with
    | nil =>
      unfold compareLoop
      simp [fgets]
    | cons c s =>
      have hlt := fgets_rest_length_lt c s
      unfold compareLoop
      simp only [fgets] at hlt ⊢
      simp only [strcmp_self, ne_eq, not_true_eq_false, if_false]
      apply ih
      simp only [List.length_cons] at hlt hf
      omega

theorem compareLoop_self (f : FileStream) : compareLoop f f = (0, [], []) :=
  compareLoop_self_aux f.length f (Nat.le_refl _)

theorem compareFilesLoop_self_aux (n : Nat) :
    ∀ (ch : Int) (f : FileStream), f.length + (if ch = EOF then 0 else 1) ≤ n →
      (compareFilesLoop ch ch f f).1 = (compareFilesLoop ch ch f f).2 := by
  induction n with
  | zero =>
    intro ch f hf
    unfold compareFilesLoop
    split
    · rename_i hc
      simp [hc.1] at hf
    · rfl
  | succ n ih =>
    intro ch f hf
    unfold compareFilesLoop
    split
    · rename_i hc
      apply ih
      cases f with
      | nil => simp [fgetc, toChar, EOF]
      | cons c s =>
        simp only [hc.1, if_false, List.length_cons] at hf
        simp only [fgetc]
        split <;> omega
    · rfl

theorem compare_output_with_answer_same (fs : FileSystem) (file1 file2 : String)
    (f : List Byte) (h1 : fs file1 = some f) (h2 : fs file2 = some f) :
    compare_output_with_answer fs file1 file2 = 0 := by
  simp [compare_output_with_answer, h1, h2, compareLoop_self, fgets]

theorem compare_files_same (fs : FileSystem) (file1 file2 : String)
    (f : List Byte) (h1 : fs file1 = some f) (h2 : fs file2 = some f) :
    compare_files fs file1 file2 = 0 := by
  have h := compareFilesLoop_self_aux _ (toChar (fgetc f).1) (fgetc f).2 (Nat.le_refl _)
  simp only [compare_files, h1, h2]
  rw [if_pos h]

/-- C8: comparing a file with an identical copy gives 0 (Equal) in both
modes, `compare_output_with_answer` of `src/autojudge/autojudge.c` and
`compare_files` of `src/autojudge/example1/autojudge.c`, whatever the content:
empty, with lines longer than the buffer, with any byte values. -/
theorem compare_identical_files (fs : FileSystem) (file1 file2 : String) (f : List Byte)
    (h1 : fs file1 = some f) (h2 : fs file2 = some f) :
    compare_output_with_answer fs file1 file2 = 0 ∧ compare_files fs file1 file2 = 0 :=
  ⟨compare_output_with_answer_same fs file1 file2 f h1 h2,
    compare_files_same fs file1 file2 f h1 h2⟩

theorem compareFilesLoop_symm_aux (n : Nat) :
    ∀ (ch1 ch2 : Int) (f g : FileStream), f.length + (if ch1 = EOF then 0 else 1) ≤ n →
      compareFilesLoop ch1 ch2 f g = Prod.swap (compareFilesLoop ch2 ch1 g f) := by
  induction n with
  | zero =>
    intro ch1 ch2 f g hf
    rw [compareFilesLoop.eq_1 ch1 ch2 f g, compareFilesLoop.eq_1 ch2 ch1 g f]
    have h1 : ch1 = EOF := by
      by_contra h
      simp [h] at hf
    simp [h1]
  | succ n ih =>
    intro ch1 ch2 f g hf
    rw [compareFilesLoop.eq_1 ch1 ch2 f g, compareFilesLoop.eq_1 ch2 ch1 g f]
    by_cases hc : ch1 ≠ EOF ∧ ch2 ≠ EOF ∧ ch1 = ch2
    · have hc2 : ch2 ≠ EOF ∧ ch1 ≠ EOF ∧ ch2 = ch1 := ⟨hc.2.1, hc.1, hc.2.2.symm⟩
      rw [dif_pos hc, dif_pos hc2]
      apply ih
      cases f with
      | nil => simp [fgetc, toChar, EOF]
      | cons c s =>
        simp only [hc.1, if_false, List.length_cons] at hf
        simp only [fgetc]
        split <;> omega
    · have hc2 : ¬(ch2 ≠ EOF ∧ ch1 ≠ EOF ∧ ch2 = ch1) := fun h =>
        hc ⟨h.2.1, h.1, h.2.2.symm⟩
      rw [dif_neg hc, dif_neg hc2]
      rfl

/-- The byte-mode comparator is symmetric: `compare_files(a, b)` and
`compare_files(b, a)` agree for all files, missing ones included. -/
theorem compare_files_symm (fs : FileSystem) (file1 file2 : String) :
    compare_files fs file1 file2 = compare_files fs file2 file1 := by
  unfold compare_files
  cases h1 : fs file1 with
  | none => cases h2 : fs file2 <;> rfl
  | some f =>
    cases h2 : fs file2 with
    | none => rfl
    | some g =>
      have h := compareFilesLoop_symm_aux _ (toChar (fgetc f).1) (toChar (fgetc g).1)
        (fgetc f).2 (fgetc g).2 (Nat.le_refl _)
      simp only []
      rw [h]
      generalize compareFilesLoop (toChar (fgetc g).1) (toChar (fgetc f).1)
        (fgetc g).2 (fgetc f).2 = r
      obtain ⟨x, y⟩ := r
      simp only [Prod.swap]
      by_cases hxy : x = y
      · simp [hxy]
      · have hyx : ¬y = x := fun h => hxy h.symm
        simp only [hxy, hyx, if_false, and_comm]

theorem fgetc_nil : fgetc ([] : FileStream) = (EOF, []) := rfl

theorem fgetc_cons (c : Byte) (s : FileStream) : fgetc (c :: s) = ((c.val : Int), s) := rfl

theorem toChar_byte_ne_EOF (b : Byte) (h : b ≠ 255) : toChar (b.val : Int) ≠ EOF := by
  have hb := b.isLt
  have hne : b.val ≠ 255 := fun hv => h (Fin.ext hv)
  simp only [toChar, EOF]
  omega

theorem toChar_byte_inj (a b : Byte) (h : toChar (a.val : Int) = toChar (b.val : Int)) :
    a = b := by
  have ha := a.isLt
  have hb := b.isLt
  simp only [toChar] at h
  apply Fin.ext
  omega

theorem compareFilesLoop_eq_iff (f : FileStream) :
    ∀ g : FileStream, (∀ b ∈ f, b ≠ 255) → (∀ b ∈ g, b ≠ 255) →
      ((compareFilesLoop (toChar (fgetc f).1) (toChar (fgetc g).1) (fgetc f).2 (fgetc g).2).1 =
        (compareFilesLoop (toChar (fgetc f).1) (toChar (fgetc g).1) (fgetc f).2 (fgetc g).2).2
        ↔ f = g) := by
  induction f with
  | nil =>
    intro g _ hg
    have h1 : toChar (fgetc ([] : FileStream)).1 = EOF := by simp [fgetc, toChar, EOF]
    rw [compareFilesLoop.eq_1, h1]
    simp only [ne_eq, not_true_eq_false, false_and, dif_neg, not_false_eq_true]
    cases g with
    | nil => simp [fgetc, toChar, EOF]
    | cons b g =>
      have hb := toChar_byte_ne_EOF b (hg b (List.mem_cons_self _ _))
      simp only [fgetc_cons]
      constructor
      · intro h
        exact absurd h.symm hb
      · intro h
        cases h
  | cons a f ih =>
    intro g hf hg
    have ha := toChar_byte_ne_EOF a (hf a (List.mem_cons_self _ _))
    cases g with
    | nil =>
      have h1 : toChar (fgetc ([] : FileStream)).1 = EOF := by simp [fgetc, toChar, EOF]
      rw [compareFilesLoop.eq_1, h1]
      simp only [ne_eq, not_true_eq_false, false_and, and_false, dif_neg, not_false_eq_true]
      simp only [fgetc_cons]
      constructor
      · intro h
        exact absurd h ha
      · intro h
        cases h
    | cons b g =>
      have hb := toChar_byte_ne_EOF b (hg b (List.mem_cons_self _ _))
      rw [compareFilesLoop.eq_1]
      simp only [fgetc_cons]
      by_cases hab : toChar (a.val : Int) = toChar (b.val : Int)
      · have hc : toChar (a.val : Int) ≠ EOF ∧ toChar (b.val : Int) ≠ EOF ∧
            toChar (a.val : Int) = toChar (b.val : Int) := ⟨ha, hb, hab⟩
        rw [dif_pos hc]
        have hi := ih g (fun x hx => hf x (List.mem_cons_of_mem _ hx))
          (fun x hx => hg x (List.mem_cons_of_mem _ hx))
        rw [hi]
        have := toChar_byte_inj a b hab
        subst this
        simp
      · have hc : ¬(toChar (a.val : Int) ≠ EOF ∧ toChar (b.val : Int) ≠ EOF ∧
            toChar (a.val : Int) = toChar (b.val : Int)) := fun h => hab h.2.2
        rw [dif_neg hc]
        simp only [hab, false_iff]
        intro h
        apply hab
        simp only [List.cons.injEq] at h
        rw [h.1]

/-- What holds of `compare_files`: on two files without the byte `0xFF` it
returns 0 exactly when the byte sequences are identical, and 1 otherwise. -/
theorem compare_files_without_high_byte (fs : FileSystem) (file1 file2 : String)
    (f g : List Byte) (h1 : fs file1 = some f) (h2 : fs file2 = some g)
    (hf : ∀ b ∈ f, b ≠ 255) (hg : ∀ b ∈ g, b ≠ 255) :
    (compare_files fs file1 file2 = 0 ↔ f = g) ∧
    (compare_files fs file1 file2 = 1 ↔ f ≠ g) := by
  have h := compareFilesLoop_eq_iff f g hf hg
  simp only [compare_files, h1, h2]
  by_cases hfg : f = g
  · rw [if_pos (h.mpr hfg)]
    simp [hfg]
  · have hne := fun hx => hfg (h.mp hx)
    rw [if_neg hne]
    have hne2 : ¬((compareFilesLoop (toChar (fgetc f).1) (toChar (fgetc g).1) (fgetc f).2
        (fgetc g).2).1 = EOF ∧ (compareFilesLoop (toChar (fgetc f).1) (toChar (fgetc g).1)
        (fgetc f).2 (fgetc g).2).2 = EOF) := fun hx => hne (hx.1.trans hx.2.symm)
    rw [if_neg hne2]
    simp [hfg]

theorem strcmp_eq_zero (a : List Byte) :
    ∀ b : List Byte, (∀ x ∈ a, x ≠ 0) → (∀ x ∈ b, x ≠ 0) → strcmp a b = 0 → a = b := by
  induction a with
  | nil =>
    intro b _ hb h
    cases b with
    | nil => rfl
    | cons y b =>
      have hy : y ≠ 0 := hb y (List.mem_cons_self _ _)
      have hv : y.val ≠ 0 := fun hv => hy (Fin.ext hv)
      simp only [strcmp] at h
      omega
  | cons x a ih =>
    intro b ha hb h
    have hx : x ≠ 0 := ha x (List.mem_cons_self _ _)
    cases b with
    | nil =>
      have hv : x.val ≠ 0 := fun hv => hx (Fin.ext hv)
      simp only [strcmp] at h
      omega
    | cons y b =>
      simp only [strcmp] at h
      by_cases hxy : x = y
      · subst hxy
        simp only [ne_eq, not_true_eq_false, if_false, hx] at h
        rw [ih b (fun z hz => ha z (List.mem_cons_of_mem _ hz))
          (fun z hz => hb z (List.mem_cons_of_mem _ hz)) h]
      · have hv : x.val ≠ y.val := fun hv => hxy (Fin.ext hv)
        simp only [ne_eq, hxy, not_false_eq_true, if_true] at h
        omega

theorem readLine_append_drop (n : Nat) :
    ∀ s : FileStream, readLine n s ++ s.drop (readLine n s).length = s := by
  induction n with
  | zero =>
    intro s
    simp [readLine]
  | succ n ih =>
    intro s
    cases s with
    | nil => simp [readLine]
    | cons c s =>
      simp only [readLine]
      split
      · simp
      · simpa using ih s

theorem compareLoop_zero_answer_initial (n : Nat) :
    ∀ out ans : FileStream, out.length ≤ n → (∀ x ∈ out, x ≠ 0) → (∀ x ∈ ans, x ≠ 0) →
      (compareLoop out ans).1 = 0 →
      (fgets BUFFER_SIZE (compareLoop out ans).2.2).1 = none →
      ans <+: out := by
  induction n with
  | zero =>
    intro out ans hlen _ _ _ hans
    have : out = [] := List.length_eq_zero.mp (Nat.le_zero.mp hlen)
    subst this
    rw [compareLoop] at hans
    simp only [fgets] at hans
    cases ans with
    | nil => exact List.prefix_refl _
    | cons d t => simp [fgets] at hans
  | succ n ih =>
    intro out ans hlen hout hans hres hrest
    cases out with
    | nil =>
      rw [compareLoop] at hrest
      simp only [fgets] at hrest
      cases ans with
      | nil => exact List.prefix_refl _
      | cons d t => simp [fgets] at hrest
    | cons c s =>
      cases ans with
      | nil => exact List.nil_prefix
      | cons d t =>
        have hlt := fgets_rest_length_lt c s
        have hco := readLine_append_drop (BUFFER_SIZE - 1) (c :: s)
        have hca := readLine_append_drop (BUFFER_SIZE - 1) (d :: t)
        rw [compareLoop] at hres hrest
        simp only [fgets] at hres hrest hlt
        by_cases hcmp : strcmp (readLine (BUFFER_SIZE - 1) (c :: s))
            (readLine (BUFFER_SIZE - 1) (d :: t)) = 0
        · simp only [hcmp, ne_eq, not_true_eq_false, if_false] at hres hrest
          have hmemo : ∀ x ∈ readLine (BUFFER_SIZE - 1) (c :: s), x ≠ 0 := fun x hx =>
            hout x (by rw [← hco]; exact List.mem_append_left _ hx)
          have hmema : ∀ x ∈ readLine (BUFFER_SIZE - 1) (d :: t), x ≠ 0 := fun x hx =>
            hans x (by rw [← hca]; exact List.mem_append_left _ hx)
          have hmemo2 : ∀ x ∈ (c :: s).drop (readLine (BUFFER_SIZE - 1) (c :: s)).length,
              x ≠ 0 := fun x hx => hout x (List.mem_of_mem_drop hx)
          have hmema2 : ∀ x ∈ (d :: t).drop (readLine (BUFFER_SIZE - 1) (d :: t)).length,
              x ≠ 0 := fun x hx => hans x (List.mem_of_mem_drop hx)
          have heq := strcmp_eq_zero _ _ hmemo hmema hcmp
          have hi := ih _ _ (by simp only [List.length_cons] at hlt hlen; omega)
            hmemo2 hmema2 hres hrest
          rw [← hco, ← hca, ← heq]
          rw [← heq] at hi
          exact (List.prefix_append_right_inj _).mpr hi
        · simp [hcmp] at hres

/-- What holds of `compare_output_with_answer` on files without NUL: when it
returns 0, the expected answer is an initial part of the produced output; so
when the output has no more bytes than the answer, it returns 0 exactly when
the two contents are identical. -/
theorem compare_output_with_answer_not_longer (fs : FileSystem) (outputFile answerFile : String)
    (out ans : List Byte) (h1 : fs outputFile = some out) (h2 : fs answerFile = some ans)
    (hout : ∀ x ∈ out, x ≠ 0) (hans : ∀ x ∈ ans, x ≠ 0) :
    (compare_output_with_answer fs outputFile answerFile = 0 → ans <+: out) ∧
    (out.length ≤ ans.length →
      (compare_output_with_answer fs outputFile answerFile = 0 ↔ out = ans)) := by
  have hpre : compare_output_with_answer fs outputFile answerFile = 0 → ans <+: out := by
    intro h
    simp only [compare_output_with_answer, h1, h2] at h
    by_cases hres : (compareLoop out ans).1 = 0
    · simp only [hres, if_true] at h
      by_cases hor : ((fgets BUFFER_SIZE (compareLoop out ans).2.1).1.isSome
          || (fgets BUFFER_SIZE (compareLoop out ans).2.2).1.isSome) = true
      · simp [hor] at h
      · simp only [Bool.or_eq_true, not_or, Bool.not_eq_true, Option.not_isSome,
          Option.isNone_iff_eq_none] at hor
        exact compareLoop_zero_answer_initial _ out ans (Nat.le_refl _) hout hans hres
          (by simpa using hor.2)
    · simp only [hres, if_false] at h
  refine ⟨hpre, fun hlen => ⟨fun h => ?_, fun h => ?_⟩⟩
  · have hp := hpre h
    exact (List.IsPrefix.eq_of_length_le hp hlen).symm
  · subst h
    exact compare_output_with_answer_same fs outputFile answerFile out h1 h2

/-- The line-mode comparator gives -1 in both orders when a file is missing. -/
theorem compare_output_with_answer_missing_symm (fs : FileSystem) (file1 file2 : String)
    (h : fs file1 = none ∨ fs file2 = none) :
    compare_output_with_answer fs file1 file2 = -1 ∧
      compare_output_with_answer fs file2 file1 = -1 := by
  unfold compare_output_with_answer
  rcases h with h | h <;> rw [h] <;> cases fs file1 <;> cases fs file2 <;> simp_all

/-- C1: when the produced output is `"a\nb\n"` and the expected answer is
`"a\n"`, the output yields a further line after the answer is exhausted, yet
`compare_output_with_answer` of `src/autojudge/autojudge.c` returns 0 (Equal). -/
theorem compare_output_with_answer_longer_output :
    longerOutputFs "temp_output.txt" = some [97, 10, 98, 10] ∧
    longerOutputFs "ans/1.txt" = some [97, 10] ∧
    compare_output_with_answer longerOutputFs "temp_output.txt" "ans/1.txt" = 0 := by
  refine ⟨by decide, by decide, ?_⟩
  simp [compare_output_with_answer, longerOutputFs, compareLoop, fgets, readLine, strcmp,
    BUFFER_SIZE]

/-- C7: `compare_output_with_answer` of `src/autojudge/autojudge.c` is not
symmetric: with `"a\nb\n"` first and `"a\n"` second it returns 0, with the two
files exchanged it returns 1. -/
theorem compare_output_with_answer_not_symmetric :
    compare_output_with_answer longerOutputFs "temp_output.txt" "ans/1.txt" = 0 ∧
    compare_output_with_answer longerOutputFs "ans/1.txt" "temp_output.txt" = 1 := by
  constructor <;>
    simp [compare_output_with_answer, longerOutputFs, compareLoop, fgets, readLine, strcmp,
      BUFFER_SIZE]

/-- C6: when one file holds the single byte `0xFF` and the other is empty,
the byte sequences differ, yet `compare_files` of
`src/autojudge/example1/autojudge.c` returns 0 (Equal): the byte read into a
`char` compares equal to `EOF`. -/
theorem compare_files_high_byte :
    highByteFs "temp_output.txt" = some [255] ∧
    highByteFs "ans/1.txt" = some [] ∧
    compare_files highByteFs "temp_output.txt" "ans/1.txt" = 0 := by
  refine ⟨by decide, by decide, ?_⟩
  simp +decide [compare_files, highByteFs, compareFilesLoop, fgetc, toChar, EOF]

/-- Witness of C8 on two copies of `"hi\n"`. -/
theorem compare_identical_files_witness :
    (sameFs "temp_output.txt" = some [104, 105, 10] ∧
      sameFs "ans/1.txt" = some [104, 105, 10]) ∧
    (compare_output_with_answer sameFs "temp_output.txt" "ans/1.txt" = 0 ∧
      compare_files sameFs "temp_output.txt" "ans/1.txt" = 0) :=
  ⟨⟨by decide, by decide⟩,
    compare_identical_files sameFs "temp_output.txt" "ans/1.txt" [104, 105, 10]
      (by decide) (by decide)⟩

/-! ## Wait status facts -/

theorem WIFSIGNALED_of_WIFEXITED {status : Nat} (h : WIFEXITED status = true) :
    WIFSIGNALED status = false := by
  have h0 : status &&& 0x7f = 0 := by simpa [WIFEXITED, WTERMSIG] using h
  simp only [WIFSIGNALED, h0]
  decide

/-! ## Verdict table of `run_test_case` -/

/-- In `src/autojudge/autojudge.c`, a child that exits normally with a
non-zero status adds one to `runtimeErrors` and changes nothing else. -/
theorem run_test_case_nonzero_exit (context : JudgeContext) (inputFile : String)
    (run : ChildRun) (hpid : 0 < run.pid) (hexit : WIFEXITED run.status = true)
    (hcode : WEXITSTATUS run.status ≠ 0) :
    run_test_case context inputFile run =
      .ok { context with runtimeErrors := context.runtimeErrors + 1 } := by
  have hsig := WIFSIGNALED_of_WIFEXITED hexit
  have hp0 : run.pid ≠ 0 := by omega
  simp [run_test_case, hp0, hpid, hsig, hexit, hcode]

/-- In `src/autojudge/autojudge.c`, a child terminated by a signal other than
`SIGALRM` leaves every counter as it was. -/
theorem run_test_case_other_signal (context : JudgeContext) (inputFile : String)
    (run : ChildRun) (hpid : 0 < run.pid) (hsig : WIFSIGNALED run.status = true)
    (hterm : WTERMSIG run.status ≠ SIGALRM) :
    run_test_case context inputFile run = .ok context := by
  have hp0 : run.pid ≠ 0 := by omega
  simp [run_test_case, hp0, hpid, hsig, hterm]

/-- C4: in `src/autojudge/autojudge.c`, a child terminated by `SIGKILL` (wait
status 9), a signal other than `SIGALRM` and `SIGSEGV`, leaves `runtimeErrors`
and every other counter unchanged, whereas `run_test_case` of
`src/autojudge/example1/autojudge.c` adds one to `runtimeErrors`. -/
theorem run_test_case_sigkill_uncounted (context : JudgeContext) (inputFile : String)
    (fs : FileSystem) :
    WIFSIGNALED 9 = true ∧ WTERMSIG 9 = 9 ∧
    run_test_case context inputFile ⟨1, 9, fs⟩ = .ok context ∧
    run_test_case_example1 context inputFile ⟨1, 9, fs⟩ =
      .ok { context with runtimeErrors := context.runtimeErrors + 1 } := by
  refine ⟨by decide, by decide, ?_, ?_⟩
  · exact run_test_case_other_signal context inputFile ⟨1, 9, fs⟩
      (by show (0 : Int) < 1; decide) (by show WIFSIGNALED 9 = true; decide)
      (by show WTERMSIG 9 ≠ SIGALRM; decide)
  · have h1 : WIFSIGNALED 9 = true := by decide
    have h2 : WTERMSIG 9 = 9 := by decide
    have h3 : WIFEXITED 9 = false := by decide
    simp [run_test_case_example1, h1, h2, h3, SIGALRM]

/-- C5: in both variants, when the wait status reports termination by
`SIGALRM`, `run_test_case` adds one to `timeouts` and changes nothing else,
whatever the output and answer files hold; the case is not counted as
passed. -/
theorem run_test_case_timeout (context : JudgeContext) (inputFile : String)
    (run : ChildRun) (hpid : 0 < run.pid) (hsig : WIFSIGNALED run.status = true)
    (hterm : WTERMSIG run.status = SIGALRM) :
    run_test_case context inputFile run =
      .ok { context with timeouts := context.timeouts + 1 } ∧
    run_test_case_example1 context inputFile run =
      .ok { context with timeouts := context.timeouts + 1 } := by
  have hp0 : run.pid ≠ 0 := by omega
  constructor
  · simp [run_test_case, hp0, hpid, hsig, hterm]
  · simp [run_test_case_example1, hp0, hpid, hsig, hterm]

/-- Witness of C5: a child killed by `SIGALRM` (wait status 14) while the
output file already equals the answer file. -/
theorem run_test_case_timeout_witness :
    ((0 : Int) < 1 ∧ WIFSIGNALED 14 = true ∧ WTERMSIG 14 = SIGALRM) ∧
    (run_test_case sampleContext "in/1.txt" ⟨1, 14, sameFs⟩ =
      .ok { sampleContext with timeouts := sampleContext.timeouts + 1 } ∧
    run_test_case_example1 sampleContext "in/1.txt" ⟨1, 14, sameFs⟩ =
      .ok { sampleContext with timeouts := sampleContext.timeouts + 1 }) :=
  ⟨⟨by decide, by decide, by decide⟩,
    run_test_case_timeout sampleContext "in/1.txt" ⟨1, 14, sameFs⟩
      (by decide) (by decide) (by decide)⟩

/-! ## The two variants compared -/

/-- C10, as stated, fails: for a child terminated by `SIGSEGV` (wait status
11) `run_test_case` of `src/autojudge/autojudge.c` changes no counter, while
`run_test_case` of `src/autojudge/example1/autojudge.c` adds one to
`runtimeErrors`. -/
theorem run_test_case_variants_differ :
    WIFSIGNALED 11 = true ∧ WTERMSIG 11 = SIGSEGV ∧
    run_test_case sampleContext "in/1.txt" ⟨1, 11, emptyFs⟩ = .ok sampleContext ∧
    run_test_case_example1 sampleContext "in/1.txt" ⟨1, 11, emptyFs⟩ =
      .ok { sampleContext with runtimeErrors := 1 } ∧
    run_test_case sampleContext "in/1.txt" ⟨1, 11, emptyFs⟩ ≠
      run_test_case_example1 sampleContext "in/1.txt" ⟨1, 11, emptyFs⟩ := by
  decide

/-- C10, amended: the two variants of `run_test_case` return the same context
for every wait status that does not report termination by a signal other than
`SIGALRM`, provided that, when the child exited with status 0, both comparators
return 0 (Equal). -/
theorem run_test_case_variants_agree (context : JudgeContext) (inputFile : String)
    (run : ChildRun)
    (hsig : WIFSIGNALED run.status = true → WTERMSIG run.status = SIGALRM)
    (hcmp : WIFEXITED run.status = true → WEXITSTATUS run.status = 0 →
      ∀ answerFile, answerFilePath context inputFile = some answerFile →
        compare_output_with_answer run.fs "temp_output.txt" answerFile = 0 ∧
        compare_files run.fs "temp_output.txt" answerFile = 0) :
    run_test_case context inputFile run = run_test_case_example1 context inputFile run := by
  unfold run_test_case run_test_case_example1
  by_cases hp0 : run.pid = 0
  · simp [hp0]
  by_cases hp : run.pid > 0
  swap
  · simp [hp0, hp]
  by_cases hs : WIFSIGNALED run.status = true
  · simp [hp0, hp, hs, hsig hs]
  by_cases he : WIFEXITED run.status = true
  swap
  · simp [hp0, hp, hs, he]
  by_cases hc : WEXITSTATUS run.status = 0
  swap
  · simp [hp0, hp, hs, he, hc]
  cases hpath : answerFilePath context inputFile with
  | none => simp [hp0, hp, hs, he, hc]
  | some answerFile =>
    have h := hcmp he hc answerFile hpath
    simp [hp0, hp, hs, he, hc, h.1, h.2]

/-- Witness of C10, amended: a child that exits with status 0 after writing the
expected answer. -/
theorem run_test_case_variants_agree_witness :
    ((WIFSIGNALED 0 = true → WTERMSIG 0 = SIGALRM) ∧
      compare_output_with_answer sameFs "temp_output.txt" "ans/1.txt" = 0 ∧
      compare_files sameFs "temp_output.txt" "ans/1.txt" = 0) ∧
    run_test_case sampleContext "in/1.txt" ⟨1, 0, sameFs⟩ =
      run_test_case_example1 sampleContext "in/1.txt" ⟨1, 0, sameFs⟩ :=
  have hsame : ∀ answerFile, answerFilePath sampleContext "in/1.txt" = some answerFile →
      compare_output_with_answer sameFs "temp_output.txt" answerFile = 0 ∧
      compare_files sameFs "temp_output.txt" answerFile = 0 := by
    intro answerFile h
    have hp : answerFilePath sampleContext "in/1.txt" = some "ans/1.txt" := by decide
    rw [hp] at h
    cases h
    exact ⟨compare_output_with_answer_same sameFs "temp_output.txt" "ans/1.txt"
        [104, 105, 10] (by decide) (by decide),
      compare_files_same sameFs "temp_output.txt" "ans/1.txt" [104, 105, 10]
        (by decide) (by decide)⟩
  ⟨⟨by decide, (hsame "ans/1.txt" (by decide)).1, (hsame "ans/1.txt" (by decide)).2⟩,
    run_test_case_variants_agree sampleContext "in/1.txt" ⟨1, 0, sameFs⟩ (by decide)
      (fun _ _ => hsame)⟩

/-! ## Counter accounting of `execute_tests` -/

theorem run_test_case_counts (context c1 : JudgeContext) (inputFile : String) (run : ChildRun)
    (h : run_test_case context inputFile run = .ok c1) :
    c1.totalTests = context.totalTests ∧
    c1.passedTests + c1.timeouts + c1.runtimeErrors +
        (if (WIFSIGNALED run.status && WTERMSIG run.status != SIGALRM) = true then 1 else 0) =
      context.passedTests + context.timeouts + context.runtimeErrors + 1 := by
  unfold run_test_case at h
  by_cases hp0 : run.pid = 0
  · simp [hp0] at h
  by_cases hp : run.pid > 0
  swap
  · simp [hp0, hp] at h
  by_cases hs : WIFSIGNALED run.status = true
  · by_cases ht : WTERMSIG run.status = SIGALRM
    · simp [hp0, hp, hs, ht] at h
      subst h
      simp [hs, ht]
      omega
    · simp [hp0, hp, hs, ht] at h
      subst h
      simp [hs, ht]
  · have hs1 : WIFSIGNALED run.status = false := by simpa using hs
    by_cases he : (WIFEXITED run.status && WEXITSTATUS run.status == 0) = true
    · cases hpath : answerFilePath context inputFile with
      | none => simp [hp0, hp, hs1, he, hpath] at h
      | some answerFile =>
        by_cases hcmp : compare_output_with_answer run.fs "temp_output.txt" answerFile = 0
        · simp [hp0, hp, hs1, he, hpath, hcmp] at h
          subst h
          simp [hs1]
          omega
        · simp [hp0, hp, hs1, he, hpath, hcmp] at h
          subst h
          simp [hs1]
          omega
    · simp [hp0, hp, hs1, he] at h
      subst h
      simp [hs1]
      omega

theorem executeLoop_accounting (entries : List (Dirent × ChildRun)) :
    ∀ context ctx : JudgeContext, executeLoop context entries = .ok ctx →
      ctx.totalTests - (ctx.passedTests + ctx.timeouts + ctx.runtimeErrors) =
        context.totalTests - (context.passedTests + context.timeouts + context.runtimeErrors)
          + otherSignalCases entries := by
  induction entries with
  | nil =>
    intro context ctx h
    simp only [executeLoop, Except.ok.injEq] at h
    subst h
    simp [otherSignalCases]
  | cons e rest ih =>
    intro context ctx h
    obtain ⟨entry, run⟩ := e
    simp only [executeLoop] at h
    by_cases hreg : entry.d_type = DT_REG
    · simp only [hreg, if_true] at h
      cases hrun : run_test_case context
          (snprintf 512 (context.inputDir ++ "/" ++ entry.d_name)) run with
      | error e => simp [hrun] at h
      | ok c1 =>
        simp only [hrun] at h
        have hc := run_test_case_counts _ _ _ _ hrun
        have hi := ih _ _ h
        simp only at hi
        by_cases hsig : (WIFSIGNALED run.status && WTERMSIG run.status != SIGALRM) = true
        · have hlen : otherSignalCases ((entry, run) :: rest) = otherSignalCases rest + 1 := by
            simp [otherSignalCases, List.filter_cons, hreg, hsig]
          rw [hlen]
          simp only [hsig, if_true] at hc
          push_cast
          omega
        · have hlen : otherSignalCases ((entry, run) :: rest) = otherSignalCases rest := by
            simp only [otherSignalCases, List.filter_cons, hreg, decide_True, Bool.true_and]
            simp [hsig]
          rw [hlen]
          simp only [hsig, Bool.false_eq_true, if_false, add_zero] at hc
          omega
    · simp only [hreg, if_false] at h
      have hlen : otherSignalCases ((entry, run) :: rest) = otherSignalCases rest := by
        simp [otherSignalCases, List.filter_cons, hreg]
      rw [hlen]
      exact ih _ _ h

/-- What holds of `execute_tests` in `src/autojudge/autojudge.c`: from a zeroed
context, `totalTests` is the sum of `passedTests`, `timeouts`, `runtimeErrors`
and the number of cases whose child was terminated by a signal other than
`SIGALRM`. -/
theorem execute_tests_accounting (entries : List (Dirent × ChildRun)) (ctx : JudgeContext)
    (h : execute_tests JudgeContext.zeroed (some entries) = .ok ctx) :
    ctx.totalTests =
      ctx.passedTests + ctx.timeouts + ctx.runtimeErrors + otherSignalCases entries := by
  have h1 := executeLoop_accounting entries JudgeContext.zeroed ctx h
  simp only [JudgeContext.zeroed] at h1
  omega

/-- C2: with one regular input file whose child is terminated by `SIGKILL`,
`execute_tests` of `src/autojudge/autojudge.c` returns from a zeroed context
with `totalTests = 1` while `passedTests`, `timeouts` and `runtimeErrors` are 0
and no case was terminated by `SIGSEGV`. -/
theorem execute_tests_sigkill_unaccounted :
    execute_tests JudgeContext.zeroed (some sigkillDir) =
      .ok { JudgeContext.zeroed with totalTests := 1 } ∧
    segvCases sigkillDir = 0 := by
  decide

/-! ## Time limit of `parse_command_line` -/

theorem parseLoop_example1_timeLimit (events : List (Char × String)) :
    ∀ context ctx : JudgeContext, parseLoop_example1 context events = .ok ctx →
      (∀ optarg, ('t', optarg) ∈ events → 0 < atoi optarg) ∧
      ((events.any fun e => e.1 = 't') = true → 0 < ctx.timeLimit) ∧
      ((events.any fun e => e.1 = 't') = false → ctx.timeLimit = context.timeLimit) := by
  induction events with
  | nil =>
    intro context ctx h
    simp only [parseLoop_example1, Except.ok.injEq] at h
    subst h
    simp
  | cons e rest ih =>
    intro context ctx h
    obtain ⟨opt, optarg⟩ := e
    simp only [parseLoop_example1] at h
    by_cases hi : opt = 'i'
    · subst hi
      by_cases hlen : optarg.length < 256
      · simp only [hlen, if_true] at h
        have := ih _ _ h
        refine ⟨fun o ho => ?_, fun hany => ?_, fun hany => ?_⟩
        · simp only [List.mem_cons, Prod.mk.injEq] at ho
          rcases ho with ho | ho
          · exact absurd ho.1 (by decide)
          · exact this.1 o ho
        · apply this.2.1
          simpa using hany
        · have h2 := this.2.2 (by simpa using hany)
          simpa using h2
      · simp [hlen] at h
    by_cases ha : opt = 'a'
    · subst ha
      by_cases hlen : optarg.length < 256
      · simp only [hi, if_false, hlen, if_true] at h
        have := ih _ _ h
        refine ⟨fun o ho => ?_, fun hany => ?_, fun hany => ?_⟩
        · simp only [List.mem_cons, Prod.mk.injEq] at ho
          rcases ho with ho | ho
          · exact absurd ho.1 (by decide)
          · exact this.1 o ho
        · apply this.2.1
          simpa using hany
        · have h2 := this.2.2 (by simpa using hany)
          simpa using h2
      · simp [hi, hlen] at h
    by_cases ht : opt = 't'
    · subst ht
      by_cases hpos : atoi optarg ≤ 0
      · simp [hi, ha, hpos] at h
      · simp only [hi, ha, if_false, hpos, if_true] at h
        have := ih _ _ h
        refine ⟨fun o ho => ?_, fun _ => ?_, fun hany => ?_⟩
        · simp only [List.mem_cons, Prod.mk.injEq] at ho
          rcases ho with ho | ho
          · rw [ho.2]
            omega
          · exact this.1 o ho
        · by_cases hrest : (rest.any fun e => e.1 = 't') = true
          · exact this.2.1 hrest
          · have h2 := this.2.2 (Bool.eq_false_iff.mpr hrest)
            simp only at h2
            omega
        · simp at hany
    · simp [hi, ha, ht] at h

theorem parseLoop_timeLimit (events : List (Char × String)) :
    ∀ context ctx : JudgeContext, parseLoop context events = .ok ctx →
      ctx.timeLimit = lastTimeLimit events context.timeLimit := by
  induction events with
  | nil =>
    intro context ctx h
    simp only [parseLoop, Except.ok.injEq] at h
    subst h
    simp [lastTimeLimit]
  | cons e rest ih =>
    intro context ctx h
    obtain ⟨opt, optarg⟩ := e
    simp only [parseLoop] at h
    by_cases hi : opt = 'i'
    · subst hi
      simp only [if_true] at h
      simpa [lastTimeLimit] using ih _ _ h
    by_cases ha : opt = 'a'
    · subst ha
      simp only [hi, if_false, if_true] at h
      simpa [lastTimeLimit] using ih _ _ h
    by_cases ht : opt = 't'
    · subst ht
      simp only [hi, ha, if_false, if_true] at h
      simpa [lastTimeLimit] using ih _ _ h
    · simp [hi, ha, ht] at h

/-- C9: `parse_command_line` of `src/autojudge/autojudge.c` returns normally on
`-i in -a ans -t 0 prog.c` with `timeLimit = 0`, and `parse_command_line` of
`src/autojudge/example1/autojudge.c` returns normally on `-i in -a ans prog.c`,
where `-t` is absent, with `timeLimit = 0`; neither exits with failure, and
`alarm(0)` then sets no deadline. -/
theorem parse_command_line_zero_timeLimit :
    parse_command_line zeroLimitArgv zeroLimitGetopt JudgeContext.zeroed =
      .ok { JudgeContext.zeroed with
            inputDir := "in", answerDir := "ans", executable := "prog.c", timeLimit := 0 } ∧
    parse_command_line_example1 (fun _ => true) noLimitArgv noLimitGetopt JudgeContext.zeroed =
      .ok { JudgeContext.zeroed with
            inputDir := "in", answerDir := "ans", executable := "prog.c.out",
            timeLimit := 0 } := by
  decide

/-- What holds of the time limit: when `parse_command_line` of
`src/autojudge/example1/autojudge.c` returns normally, every `-t` value parsed
(`atoi`) to a value above 0, and `timeLimit` is above 0 if a `-t` option was
given; when `parse_command_line` of `src/autojudge/autojudge.c` returns
normally, `timeLimit` is `atoi` of the last `-t` value, or the initial value
when there is no `-t`. -/
theorem parse_command_line_timeLimit (isDir : String → Bool) (argv : List String)
    (g : GetoptRun) (context : JudgeContext) :
    (∀ ctx, parse_command_line_example1 isDir argv g context = .ok ctx →
      (∀ optarg, ('t', optarg) ∈ g.events → 0 < atoi optarg) ∧
      (hasTimeOption g = true → 0 < ctx.timeLimit)) ∧
    (∀ ctx, parse_command_line argv g context = .ok ctx →
      ctx.timeLimit = lastTimeLimit g.events context.timeLimit) := by
  constructor
  · intro ctx h
    unfold parse_command_line_example1 at h
    cases hloop : parseLoop_example1 context g.events with
    | error e => simp [hloop] at h
    | ok c1 =>
      have hl := parseLoop_example1_timeLimit g.events context c1 hloop
      simp only [hloop] at h
      split at h
      · split at h
        · simp at h
        · split at h
          · simp at h
          · simp only [Except.ok.injEq] at h
            subst h
            exact ⟨hl.1, hl.2.1⟩
      · simp at h
  · intro ctx h
    unfold parse_command_line at h
    cases hloop : parseLoop context g.events with
    | error e => simp [hloop] at h
    | ok c1 =>
      have hl := parseLoop_timeLimit g.events context c1 hloop
      simp only [hloop] at h
      split at h
      · simp only [Except.ok.injEq] at h
        subst h
        exact hl
      · simp at h

/-- Both variants return normally on `-i in -a ans -t 5 prog.c`, with
`timeLimit = 5`. -/
theorem parse_command_line_timeLimit_witness :
    (parse_command_line_example1 (fun _ => true) fiveLimitArgv fiveLimitGetopt
        JudgeContext.zeroed =
      .ok { JudgeContext.zeroed with
            inputDir := "in", answerDir := "ans", executable := "prog.c.out",
            timeLimit := 5 } ∧
      hasTimeOption fiveLimitGetopt = true ∧
      parse_command_line fiveLimitArgv fiveLimitGetopt JudgeContext.zeroed =
        .ok sampleContext5) ∧
    ((0 : Int) < 5 ∧ (5 : Int) = lastTimeLimit fiveLimitGetopt.events 0) :=
  ⟨⟨by decide, by decide, by decide⟩,
    ((parse_command_line_timeLimit (fun _ => true) fiveLimitArgv fiveLimitGetopt
        JudgeContext.zeroed).1 { sampleContext5 with executable := "prog.c.out" }
        (by decide)).2 (by decide),
    (parse_command_line_timeLimit (fun _ => true) fiveLimitArgv fiveLimitGetopt
        JudgeContext.zeroed).2 sampleContext5 (by decide)⟩

end Autojudge
